import Mathlib

/-
Verification development for the docker-mirror command-line tool
(src/main.go).  The tool pulls container images from a list of mirror
registries, re-tags them, and pushes them to a private registry, driven
by a YAML-backed configuration file.

Modelling choices:
* The external container engine is a deterministic oracle
  `Runner : String → List String → String × Bool` mapping an invoked
  command and its argument list to its combined stdout+stderr output and
  a Bool that is `true` exactly when the process exits with status zero.
* The file system is a map `Fs : String → Option Yaml` from paths to the
  YAML document stored there.  The textual YAML layer itself belongs to
  the external library gopkg.in/yaml.v2, so marshalling is modelled at
  the level of YAML trees: `configToYaml` is the tree yaml.Marshal
  produces for a `Config` value and `yamlToConfig` is yaml.Unmarshal
  into a `Config` (missing keys yield Go zero values, type mismatches
  yield errors).
* `log.Fatalf` (process termination with non-zero status) is modelled by
  returning `false` as the final Bool of an orchestrator run; `true`
  means the subcommand ran to completion.  Every call the orchestrator
  makes to `Execute` is recorded, in order, in a trace of
  `Cmd = String × List String` entries holding the command name and the
  argument list as passed to `Execute` (the darwin platform-flag rewrite
  happens inside `Execute`, see `adjustArgs`).
-/

namespace DockerMirror

/-- The configuration record's nested `registry` block
(src/main.go lines 19-24): push-target domain, credentials, and the
`project` field. -/
structure Registry where
  domain : String
  username : String
  password : String
  project : String
deriving Repr, DecidableEq

/-- The configuration record (src/main.go lines 18-26): the registry
block plus the ordered list of mirror hosts `dockerRegistries`. -/
structure Config where
  registry : Registry
  dockerRegistries : List String
deriving Repr, DecidableEq

/-- YAML documents, to the depth this program uses them: string
scalars, sequences, and mappings with string keys. -/
inductive Yaml where
  | str (s : String)
  | seq (items : List Yaml)
  | map (entries : List (String × Yaml))

/-- The YAML tree `yaml.Marshal` produces for a `Config` value:
a mapping with the `registry` block (keys in struct-field order) and
the `dockerRegistries` sequence. -/
def configToYaml (c : Config) : Yaml :=
  .map [("registry", .map
            [("domain", .str c.registry.domain),
             ("username", .str c.registry.username),
             ("password", .str c.registry.password),
             ("project", .str c.registry.project)]),
        ("dockerRegistries", .seq (c.dockerRegistries.map .str))]

/-- Look up a key in a YAML mapping's entry list (first occurrence). -/
def lookupKey (entries : List (String × Yaml)) (k : String) : Option Yaml :=
  (entries.find? (fun e => e.1 == k)).map (·.2)

/-- Unmarshal a (possibly absent) YAML node into a Go `string` field:
an absent key leaves the zero value `""`, a scalar is taken verbatim,
anything else is a type error. -/
def decodeStr : Option Yaml → Except String String
  | none => .ok ""
  | some (.str s) => .ok s
  | some _ => .error "cannot unmarshal into string"

/-- Unmarshal one sequence item into a Go `string`. -/
def decodeStrItem : Yaml → Except String String
  | .str s => .ok s
  | _ => .error "cannot unmarshal into string"

/-- Unmarshal each sequence item in turn, stopping at the first
failure. -/
def decodeItems : List Yaml → Except String (List String)
  | [] => .ok []
  | y :: ys => do
      let s ← decodeStrItem y
      let rest ← decodeItems ys
      return s :: rest

/-- Unmarshal a (possibly absent) YAML node into a Go `[]string` field. -/
def decodeStrList : Option Yaml → Except String (List String)
  | none => .ok []
  | some (.seq items) => decodeItems items
  | some _ => .error "cannot unmarshal into []string"

/-- Unmarshal the nested `registry` block. -/
def decodeRegistry : Option Yaml → Except String Registry
  | none => .ok ⟨"", "", "", ""⟩
  | some (.map entries) => do
      let d ← decodeStr (lookupKey entries "domain")
      let u ← decodeStr (lookupKey entries "username")
      let p ← decodeStr (lookupKey entries "password")
      let pr ← decodeStr (lookupKey entries "project")
      return ⟨d, u, p, pr⟩
  | some _ => .error "cannot unmarshal into struct"

/-- `yaml.Unmarshal` of a document into a `Config` value. -/
def yamlToConfig : Yaml → Except String Config
  | .map entries => do
      let reg ← decodeRegistry (lookupKey entries "registry")
      let regs ← decodeStrList (lookupKey entries "dockerRegistries")
      return ⟨reg, regs⟩
  | _ => .error "cannot unmarshal into Config"

/-- The file system as seen by this tool: a map from paths to the YAML
document stored there (`none` = no such file). -/
def Fs : Type := String → Option Yaml

/-- `LoadConfig` (src/main.go lines 40-51): read the file at
`configFile` (propagating a read error when it does not exist) and
unmarshal it, propagating parse errors. -/
def LoadConfig (configFile : String) (fs : Fs) : Except String Config :=
  match fs configFile with
  | none => .error "no such file or directory"
  | some doc => yamlToConfig doc

/-- `SaveConfig` (src/main.go lines 54-60): marshal the record and
write the file, truncating whatever was there. -/
def SaveConfig (configFile : String) (config : Config) (fs : Fs) : Fs :=
  fun p => if p = configFile then some (configToYaml config) else fs p

/-- Result of running an external command: combined stdout+stderr
output, and `true` exactly when the exit status was zero. -/
abbrev ExecResult := String × Bool

/-- The external world: what each command invocation outputs and
whether it exits zero.  Deterministic within one run. -/
abbrev Runner := String → List String → ExecResult

/-- The argument rewrite inside `Execute` (src/main.go lines 64-66):
when the command is `docker`, the first argument is `pull`, and the
operating system is darwin, insert `--platform linux/amd64` right after
the first argument; otherwise leave the arguments unchanged. -/
def adjustArgs (goos : String) (command : String) (args : List String) : List String :=
  if command = "docker" ∧ args.head? = some "pull" ∧ goos = "darwin" then
    args.take 1 ++ (["--platform", "linux/amd64"] ++ args.drop 1)
  else args

/-- `Execute` (src/main.go lines 63-72): apply the darwin rewrite, run
the command, and hand back its combined output and exit status. -/
def Execute (goos : String) (run : Runner) (command : String) (args : List String) : ExecResult :=
  run command (adjustArgs goos command args)

/-- `Configure` (src/main.go lines 83-98): build a fresh record from
the three prompted strings (the `project` field keeps its zero value),
install the three fixed default mirror hosts, and save.  The prompt
answers are passed in as arguments. -/
def Configure (domain username password : String) (configFile : String) (fs : Fs) : Fs :=
  SaveConfig configFile
    ⟨⟨domain, username, password, ""⟩,
     ["docker.m.daocloud.io", "quay.m.daocloud.io", "k8s.m.daocloud.io"]⟩ fs

/-- Go's `strings.Split(s, "/")` on the underlying character list:
every occurrence of the separator starts a new field, so a string with
no slash yields the one-element list holding the string itself. -/
def splitSlash : List Char → List (List Char)
  | [] => [[]]
  | c :: rest =>
      let r := splitSlash rest
      if c = '/' then [] :: r
      else (c :: r.headD []) :: r.tail

/-- `strings.Split(image, "/")` as used at src/main.go line 141. -/
def goSplit (s : String) : List String :=
  (splitSlash s.data).map fun cs => ⟨cs⟩

/-- The `part` variable after the bare-name normalization
(src/main.go lines 141, 150-152): split on `/`; when the result is a
single element, prepend `library` (Go appends `part[0]` to
`["library"]`, which for a one-element `part` is the same list). -/
def normalizePart (image : String) : List String :=
  let part := goSplit image
  if part.length = 1 then "library" :: part else part

/-- One recorded invocation of `Execute`: the command and the argument
list main passes to it. -/
abbrev Cmd := String × List String

/-- The command main issues to pull `target` (src/main.go lines 160,
171, 227, 237). -/
def pullCmd (target : String) : Cmd := ("docker", ["pull", target])

/-- Whether pulling `target` through `Execute` exits zero. -/
def attemptOk (goos : String) (run : Runner) (target : String) : Bool :=
  (Execute goos run "docker" ["pull", target]).2

/-- The mirror fallback loop of the `pull` subcommand (src/main.go
lines 168-179): try `<host>/<sourceImage>` for each host in order; a
failure records the error and moves on, the first success breaks out
remembering the host (`pulledRegistry`).  Returns the pull commands
issued and `some host` on success, `none` when every attempt failed
(`pullErr` is the last error, hence non-nil). -/
def mirrorLoop (goos : String) (run : Runner) (sourceImage : String) :
    List String → List Cmd × Option String
  | [] => ([], none)
  | r :: rest =>
      if attemptOk goos run (r ++ "/" ++ sourceImage) then
        ([pullCmd (r ++ "/" ++ sourceImage)], some r)
      else
        let next := mirrorLoop goos run sourceImage rest
        (pullCmd (r ++ "/" ++ sourceImage) :: next.1, next.2)

/-- The empty-mirror-list branch of the `pull` subcommand (src/main.go
lines 157-166): one bare pull; on success `pulledRegistry` keeps its
zero value `""`. -/
def bareAttempt (goos : String) (run : Runner) (sourceImage : String) :
    List Cmd × Option String :=
  if attemptOk goos run sourceImage then ([pullCmd sourceImage], some "")
  else ([pullCmd sourceImage], none)

/-- The tag / login / push tail of the `pull` subcommand (src/main.go
lines 186-205) run after a successful pull: each failing step calls
`log.Fatalf` (modelled as the Bool `false`) and nothing after it runs. -/
def afterPull (goos : String) (run : Runner) (config : Config)
    (sourceImage targetImage : String) : List Cmd × Bool :=
  let tagCmd : Cmd := ("docker", ["tag", sourceImage, targetImage])
  if (Execute goos run "docker" ["tag", sourceImage, targetImage]).2 = false then
    ([tagCmd], false)
  else
    let loginCmd : Cmd := ("docker", ["login", config.registry.domain, "-u",
      config.registry.username, "-p", config.registry.password])
    if (Execute goos run "docker" ["login", config.registry.domain, "-u",
        config.registry.username, "-p", config.registry.password]).2 = false then
      ([tagCmd, loginCmd], false)
    else
      let pushCmd : Cmd := ("docker", ["push", targetImage])
      if (Execute goos run "docker" ["push", targetImage]).2 = false then
        ([tagCmd, loginCmd, pushCmd], false)
      else ([tagCmd, loginCmd, pushCmd], true)

/-- The `pull` subcommand (src/main.go lines 133-207) after the config
has been loaded: compute the (unused) normalized `part`, the tag target
`<domain>/<image>`, run the pull attempts, and on success prefix the
source image with the winning host (when that host is not `""`) and
tag, log in, and push.  Returns the full `Execute` trace and `false`
when the run ended in `log.Fatalf`. -/
def runPull (goos : String) (run : Runner) (config : Config) (image : String) :
    List Cmd × Bool :=
  let sourceImage := image
  let _part := normalizePart image
  let targetImage := config.registry.domain ++ "/" ++ image
  let pulled :=
    if config.dockerRegistries = [] then bareAttempt goos run sourceImage
    else mirrorLoop goos run sourceImage config.dockerRegistries
  match pulled with
  | (pullTrace, none) => (pullTrace, false)
  | (pullTrace, some pulledRegistry) =>
      let sourceImage :=
        if pulledRegistry ≠ "" then pulledRegistry ++ "/" ++ sourceImage
        else sourceImage
      let tail := afterPull goos run config sourceImage targetImage
      (pullTrace ++ tail.1, tail.2)

/-- The mirror fallback loop of the `pull-local` subcommand
(src/main.go lines 234-244): identical to `mirrorLoop` except that no
`pulledRegistry` is tracked. -/
def mirrorLoopLocal (goos : String) (run : Runner) (sourceImage : String) :
    List String → List Cmd × Bool
  | [] => ([], false)
  | r :: rest =>
      if attemptOk goos run (r ++ "/" ++ sourceImage) then
        ([pullCmd (r ++ "/" ++ sourceImage)], true)
      else
        let next := mirrorLoopLocal goos run sourceImage rest
        (pullCmd (r ++ "/" ++ sourceImage) :: next.1, next.2)

/-- The empty-mirror-list branch of `pull-local` (src/main.go lines
224-232). -/
def bareAttemptLocal (goos : String) (run : Runner) (sourceImage : String) :
    List Cmd × Bool :=
  if attemptOk goos run sourceImage then ([pullCmd sourceImage], true)
  else ([pullCmd sourceImage], false)

/-- The `pull-local` subcommand (src/main.go lines 208-251) after the
config has been loaded: run the pull attempts and stop; no tag, login
or push.  `false` means every attempt failed and the run ended in
`log.Fatalf`. -/
def runPullLocal (goos : String) (run : Runner) (config : Config) (image : String) :
    List Cmd × Bool :=
  let sourceImage := image
  if config.dockerRegistries = [] then bareAttemptLocal goos run sourceImage
  else mirrorLoopLocal goos run sourceImage config.dockerRegistries

/-- The pull attempts recorded in a trace: the invocations whose first
argument is `pull`. -/
def attemptsOf (tr : List Cmd) : List Cmd :=
  tr.filter fun c => c.2.head? == some "pull"

/-- The tag invocations recorded in a trace. -/
def tagsOf (tr : List Cmd) : List Cmd :=
  tr.filter fun c => c.2.head? == some "tag"

/-- `config` with only its `registry.project` field replaced. -/
def withProject (c : Config) (p : String) : Config :=
  ⟨⟨c.registry.domain, c.registry.username, c.registry.password, p⟩,
   c.dockerRegistries⟩

/-- A container engine on which every invocation exits zero. -/
def runnerAllOk : Runner := fun _ _ => ("", true)

/-- A container engine on which every invocation exits non-zero. -/
def runnerAllFail : Runner := fun _ _ => ("", false)

/-- A container engine on which exactly the pull invocations exit
zero (tag, login and push fail). -/
def runnerPullsOnly : Runner := fun _ args => ("", args.head? == some "pull")

/-- A container engine on which exactly the pull of the given target
exits zero; every other invocation fails. -/
def runnerOnlyTarget (target : String) : Runner :=
  fun _ args => ("", args == ["pull", target])

/-- A sample configuration with the single default mirror host. -/
def cfgDefault : Config :=
  ⟨⟨"harbor.example.com", "user", "secret", ""⟩, ["docker.m.daocloud.io"]⟩

/-- A configuration whose only mirror host is the empty string. -/
def cfgEmptyHost : Config :=
  ⟨⟨"example.com", "user", "secret", ""⟩, [""]⟩

/-- A sample configuration with three mirror hosts. -/
def cfgABC : Config :=
  ⟨⟨"example.com", "user", "secret", ""⟩, ["a", "b", "c"]⟩

/-- A sample configuration with no mirror hosts. -/
def cfgNoMirrors : Config :=
  ⟨⟨"example.com", "user", "secret", ""⟩, []⟩

/- Lemmas about the YAML codec. -/

theorem decodeItems_map_str (xs : List String) :
    decodeItems (xs.map Yaml.str) = Except.ok xs := by
  induction xs with
  | nil => rfl
  | cons x xs ih =>
      simp [decodeItems, decodeStrItem, ih]
      rfl

/-- Unmarshalling the tree produced for a configuration record gives
back that record. -/
theorem decode_encode (c : Config) :
    yamlToConfig (configToYaml c) = .ok c := by
  have h := decodeItems_map_str c.dockerRegistries
  simp [yamlToConfig, configToYaml, lookupKey, decodeRegistry, decodeStr,
    decodeStrList, h]
  rfl

/- Lemmas about traces. -/

theorem attemptsOf_append (a b : List Cmd) :
    attemptsOf (a ++ b) = attemptsOf a ++ attemptsOf b := by
  simp [attemptsOf, List.filter_append]

theorem tagsOf_append (a b : List Cmd) :
    tagsOf (a ++ b) = tagsOf a ++ tagsOf b := by
  simp [tagsOf, List.filter_append]

theorem attemptsOf_cons_pull (t : String) (tr : List Cmd) :
    attemptsOf (pullCmd t :: tr) = pullCmd t :: attemptsOf tr := rfl

theorem tagsOf_cons_pull (t : String) (tr : List Cmd) :
    tagsOf (pullCmd t :: tr) = tagsOf tr := rfl

theorem attemptsOf_nil : attemptsOf [] = [] := rfl

theorem tagsOf_nil : tagsOf [] = [] := rfl

theorem attemptsOf_pull_map (img : String) (hosts : List String) :
    attemptsOf (hosts.map fun r => pullCmd (r ++ "/" ++ img)) =
      hosts.map fun r => pullCmd (r ++ "/" ++ img) := by
  induction hosts with
  | nil => rfl
  | cons r hosts ih => simp [List.map_cons, attemptsOf_cons_pull, ih]

theorem tagsOf_pull_map (img : String) (hosts : List String) :
    tagsOf (hosts.map fun r => pullCmd (r ++ "/" ++ img)) = [] := by
  induction hosts with
  | nil => rfl
  | cons r hosts ih => simp [List.map_cons, tagsOf_cons_pull, ih]

/- Lemmas about the tag / login / push tail. -/

theorem afterPull_eq (goos : String) (run : Runner) (config : Config)
    (s t : String) :
    afterPull goos run config s t =
      (("docker", ["tag", s, t]) ::
        (if (Execute goos run "docker" ["tag", s, t]).2 then
          ("docker", ["login", config.registry.domain, "-u",
            config.registry.username, "-p", config.registry.password]) ::
            (if (Execute goos run "docker" ["login", config.registry.domain, "-u",
                config.registry.username, "-p", config.registry.password]).2 then
              [("docker", ["push", t])]
            else [])
        else []),
       (Execute goos run "docker" ["tag", s, t]).2 &&
         ((Execute goos run "docker" ["login", config.registry.domain, "-u",
             config.registry.username, "-p", config.registry.password]).2 &&
           (Execute goos run "docker" ["push", t]).2)) := by
  unfold afterPull
  cases htag : (Execute goos run "docker" ["tag", s, t]).2 <;>
    cases hlogin : (Execute goos run "docker" ["login", config.registry.domain,
      "-u", config.registry.username, "-p", config.registry.password]).2 <;>
    cases hpush : (Execute goos run "docker" ["push", t]).2 <;>
    simp [htag, hlogin, hpush]

theorem attemptsOf_afterPull (goos : String) (run : Runner) (config : Config)
    (s t : String) :
    attemptsOf (afterPull goos run config s t).1 = [] := by
  rw [afterPull_eq]
  cases (Execute goos run "docker" ["tag", s, t]).2 <;>
    cases (Execute goos run "docker" ["login", config.registry.domain,
      "-u", config.registry.username, "-p", config.registry.password]).2 <;>
    simp [attemptsOf]

theorem tagsOf_afterPull (goos : String) (run : Runner) (config : Config)
    (s t : String) :
    tagsOf (afterPull goos run config s t).1 = [("docker", ["tag", s, t])] := by
  rw [afterPull_eq]
  cases (Execute goos run "docker" ["tag", s, t]).2 <;>
    cases (Execute goos run "docker" ["login", config.registry.domain,
      "-u", config.registry.username, "-p", config.registry.password]).2 <;>
    simp [tagsOf]

/- Lemmas about the mirror fallback loops. -/

theorem mirrorLoop_success (goos : String) (run : Runner) (img : String)
    (failed : List String) (succ : String) (rest : List String)
    (hf : ∀ r ∈ failed, attemptOk goos run (r ++ "/" ++ img) = false)
    (hs : attemptOk goos run (succ ++ "/" ++ img) = true) :
    mirrorLoop goos run img (failed ++ succ :: rest) =
      ((failed ++ [succ]).map (fun r => pullCmd (r ++ "/" ++ img)), some succ) := by
  induction failed with
  | nil => simp [mirrorLoop, hs]
  | cons r failed ih =>
      have hr : attemptOk goos run (r ++ "/" ++ img) = false := hf r (by simp)
      have ih' := ih fun x hx => hf x (by simp [hx])
      simp [mirrorLoop, hr, ih']

theorem mirrorLoop_allFail (goos : String) (run : Runner) (img : String)
    (hosts : List String)
    (hf : ∀ r ∈ hosts, attemptOk goos run (r ++ "/" ++ img) = false) :
    mirrorLoop goos run img hosts =
      (hosts.map (fun r => pullCmd (r ++ "/" ++ img)), none) := by
  induction hosts with
  | nil => rfl
  | cons r hosts ih =>
      have hr : attemptOk goos run (r ++ "/" ++ img) = false := hf r (by simp)
      have ih' := ih fun x hx => hf x (by simp [hx])
      simp [mirrorLoop, hr, ih']

theorem mirrorLoopLocal_mirrorLoop (goos : String) (run : Runner) (img : String)
    (hosts : List String) :
    mirrorLoopLocal goos run img hosts =
      ((mirrorLoop goos run img hosts).1, (mirrorLoop goos run img hosts).2.isSome) := by
  induction hosts with
  | nil => rfl
  | cons r hosts ih =>
      by_cases h : attemptOk goos run (r ++ "/" ++ img) = true
      · simp [mirrorLoop, mirrorLoopLocal, h]
      · simp only [Bool.not_eq_true] at h
        simp [mirrorLoop, mirrorLoopLocal, h, ih]

/- Characterizations of the pull subcommand. -/

theorem runPull_mirror_success (goos : String) (run : Runner) (config : Config)
    (image : String) (failed : List String) (succ : String) (rest : List String)
    (hcfg : config.dockerRegistries = failed ++ succ :: rest)
    (hf : ∀ r ∈ failed, attemptOk goos run (r ++ "/" ++ image) = false)
    (hs : attemptOk goos run (succ ++ "/" ++ image) = true) :
    runPull goos run config image =
      ((failed ++ [succ]).map (fun r => pullCmd (r ++ "/" ++ image)) ++
        (afterPull goos run config
          (if succ ≠ "" then succ ++ "/" ++ image else image)
          (config.registry.domain ++ "/" ++ image)).1,
       (afterPull goos run config
          (if succ ≠ "" then succ ++ "/" ++ image else image)
          (config.registry.domain ++ "/" ++ image)).2) := by
  have hm := mirrorLoop_success goos run image failed succ rest hf hs
  simp [runPull, hcfg, hm]

theorem runPull_mirror_allFail (goos : String) (run : Runner) (config : Config)
    (image : String)
    (hne : config.dockerRegistries ≠ [])
    (hf : ∀ r ∈ config.dockerRegistries, attemptOk goos run (r ++ "/" ++ image) = false) :
    runPull goos run config image =
      (config.dockerRegistries.map (fun r => pullCmd (r ++ "/" ++ image)), false) := by
  have hm := mirrorLoop_allFail goos run image config.dockerRegistries hf
  simp [runPull, hne, hm]

theorem runPull_bare (goos : String) (run : Runner) (config : Config)
    (image : String) (hcfg : config.dockerRegistries = []) :
    runPull goos run config image =
      (if attemptOk goos run image then
        (pullCmd image ::
          (afterPull goos run config image (config.registry.domain ++ "/" ++ image)).1,
         (afterPull goos run config image (config.registry.domain ++ "/" ++ image)).2)
      else ([pullCmd image], false)) := by
  by_cases h : attemptOk goos run image = true
  · simp [runPull, hcfg, bareAttempt, h]
  · simp only [Bool.not_eq_true] at h
    simp [runPull, hcfg, bareAttempt, h]

theorem mirrorLoop_trace_pulls (goos : String) (run : Runner) (img : String)
    (hosts : List String) :
    ∀ c ∈ (mirrorLoop goos run img hosts).1, ∃ t, c = pullCmd t := by
  induction hosts with
  | nil => simp [mirrorLoop]
  | cons r hosts ih =>
      by_cases h : attemptOk goos run (r ++ "/" ++ img) = true
      · simp [mirrorLoop, h]
      · simp only [Bool.not_eq_true] at h
        simp only [mirrorLoop, h, Bool.false_eq_true, if_false, List.mem_cons]
        rintro c (rfl | hc)
        · exact ⟨r ++ "/" ++ img, rfl⟩
        · exact ih c hc

/-- C7: saving a configuration record with `SaveConfig` and then
loading the same path with `LoadConfig` succeeds and yields an equal
record, for every record, path, and prior file-system state. -/
theorem save_load_roundtrip (configFile : String) (fs : Fs) (config : Config) :
    LoadConfig configFile (SaveConfig configFile config fs) = .ok config := by
  simp [LoadConfig, SaveConfig, decode_encode]

/-- C8: `Execute` inserts `--platform linux/amd64` immediately after
the first argument exactly when the command is `docker`, the first
argument is `pull`, and the operating system is darwin; in every other
case the argument list reaches the external command unchanged, and the
runner's combined output and exit status are returned as is. -/
theorem execute_platform_rewrite (goos : String) (run : Runner)
    (command : String) (args : List String) :
    (command = "docker" → goos = "darwin" →
      ∀ rest, args = "pull" :: rest →
        Execute goos run command args =
          run command ("pull" :: "--platform" :: "linux/amd64" :: rest)) ∧
    (¬(command = "docker" ∧ args.head? = some "pull" ∧ goos = "darwin") →
      Execute goos run command args = run command args) := by
  constructor
  · rintro rfl rfl rest rfl
    simp [Execute, adjustArgs]
  · intro h
    simp [Execute, adjustArgs, h]

/-- Witness for C8: on darwin a `docker pull` invocation gains the
platform flag pair right after `pull`; on linux it does not. -/
theorem execute_platform_rewrite_witness :
    Execute "darwin" runnerAllOk "docker" ["pull", "nginx"] =
      runnerAllOk "docker" ["pull", "--platform", "linux/amd64", "nginx"] ∧
    Execute "linux" runnerAllOk "docker" ["pull", "nginx"] =
      runnerAllOk "docker" ["pull", "nginx"] :=
  ⟨(execute_platform_rewrite "darwin" runnerAllOk "docker" ["pull", "nginx"]).1
      rfl rfl ["nginx"] rfl,
   (execute_platform_rewrite "linux" runnerAllOk "docker" ["pull", "nginx"]).2
      (by decide)⟩

/-- C9: the configuration saved by the config subcommand consists of
exactly the three prompted strings, an empty project, and the three
fixed default mirror hosts; the previously stored file content has no
influence on what ends up at the path. -/
theorem configure_overwrites (domain username password configFile : String)
    (fs : Fs) :
    LoadConfig configFile (Configure domain username password configFile fs) =
      .ok ⟨⟨domain, username, password, ""⟩,
           ["docker.m.daocloud.io", "quay.m.daocloud.io", "k8s.m.daocloud.io"]⟩ ∧
    ∀ fs' : Fs, Configure domain username password configFile fs configFile =
      Configure domain username password configFile fs' configFile := by
  constructor
  · simp [Configure, LoadConfig, SaveConfig, decode_encode]
  · intro fs'
    simp [Configure, SaveConfig]

/-- C10: the `registry.project` field survives a SaveConfig/LoadConfig
round trip but is never read by the pull or pull-local subcommands:
changing it changes neither subcommand's command trace or outcome. -/
theorem project_field_unused (goos : String) (run : Runner) (config : Config)
    (image proj configFile : String) (fs : Fs) :
    runPull goos run (withProject config proj) image =
      runPull goos run config image ∧
    runPullLocal goos run (withProject config proj) image =
      runPullLocal goos run config image ∧
    ∃ c, LoadConfig configFile (SaveConfig configFile config fs) = .ok c ∧
      c.registry.project = config.registry.project := by
  refine ⟨rfl, rfl, config, ?_, rfl⟩
  simp [LoadConfig, SaveConfig, decode_encode]

/-- C1: the `library/` normalization is computed but dropped.  At input
`redis:7` with the default mirror host, the internal `part` variable is
indeed `["library", "redis:7"]`, yet the pull attempt targets
`docker.m.daocloud.io/redis:7`, not `docker.m.daocloud.io/library/redis:7`
(and pull-local behaves the same), so an effective pull target of
`<host>/library/<name>` is never formed. -/
theorem library_prefix_never_applied :
    normalizePart "redis:7" = ["library", "redis:7"] ∧
    (runPull "linux" runnerAllOk cfgDefault "redis:7").1.head? =
      some (pullCmd "docker.m.daocloud.io/redis:7") ∧
    (runPullLocal "linux" runnerAllOk cfgDefault "redis:7").1.head? =
      some (pullCmd "docker.m.daocloud.io/redis:7") ∧
    "docker.m.daocloud.io/redis:7" ≠ "docker.m.daocloud.io/library/redis:7" := by
  decide

/-- C2 counterexample: with the mirror list `[""]` and an engine on
which every invocation succeeds, the first (and only) pull attempt
succeeds, i.e. M = 0, so the claim demands that the succeeding host's
name `""` be the registry prefix of the tag source; but the tag
invocation uses the bare `redis:7`, not `"" ++ "/" ++ "redis:7"`. -/
theorem empty_host_not_prefixed_in_tag :
    (attemptsOf (runPull "linux" runnerAllOk cfgEmptyHost "redis:7").1).length
      = 0 + 1 ∧
    tagsOf (runPull "linux" runnerAllOk cfgEmptyHost "redis:7").1 =
      [("docker", ["tag", "redis:7", "example.com/redis:7"])] ∧
    ("" : String) ++ "/" ++ "redis:7" ≠ "redis:7" := by
  decide

/-- C2 (amended): when the first M hosts fail and the (M+1)-th
succeeds, exactly M+1 pull attempts occur — against the first M+1 hosts
in order, later hosts untouched — whatever the succeeding host's name
is; and the one tag invocation uses the succeeding host's name as the
registry prefix of its source image when that name is nonempty, the
bare reference when it is the empty string. -/
theorem first_success_prefixes_tag (goos : String) (run : Runner)
    (config : Config) (image : String)
    (failed : List String) (succ : String) (rest : List String)
    (hcfg : config.dockerRegistries = failed ++ succ :: rest)
    (hf : ∀ r ∈ failed, attemptOk goos run (r ++ "/" ++ image) = false)
    (hs : attemptOk goos run (succ ++ "/" ++ image) = true) :
    attemptsOf (runPull goos run config image).1 =
      (failed ++ [succ]).map (fun r => pullCmd (r ++ "/" ++ image)) ∧
    tagsOf (runPull goos run config image).1 =
      [("docker", ["tag", (if succ = "" then image else succ ++ "/" ++ image),
        config.registry.domain ++ "/" ++ image])] := by
  have h := runPull_mirror_success goos run config image failed succ rest hcfg hf hs
  rw [h]
  constructor
  · simp [attemptsOf_append, attemptsOf_pull_map, attemptsOf_cons_pull,
      attemptsOf_afterPull, attemptsOf_nil]
  · simp [tagsOf_append, tagsOf_pull_map, tagsOf_cons_pull, tagsOf_afterPull,
      tagsOf_nil]

/-- Witness for C2 (amended): hosts `a`, `b`, `c` where only
`b/img` pulls successfully: two attempts, and the tag source is
`b/img`. -/
theorem first_success_prefixes_tag_witness :
    attemptsOf (runPull "linux" (runnerOnlyTarget "b/img") cfgABC "img").1 =
      (["a"] ++ ["b"]).map (fun r => pullCmd (r ++ "/" ++ "img")) ∧
    tagsOf (runPull "linux" (runnerOnlyTarget "b/img") cfgABC "img").1 =
      [("docker", ["tag",
        (if "b" = "" then "img" else "b" ++ "/" ++ "img"),
        "example.com" ++ "/" ++ "img"])] :=
  first_success_prefixes_tag "linux" (runnerOnlyTarget "b/img") cfgABC "img"
    ["a"] "b" ["c"] (by decide) (by decide) (by decide)

/-- C3: when every pull attempt fails — each mirror host, or the
single bare attempt when the mirror list is empty — the pull subcommand
ends in `log.Fatalf` (outcome `false`), its trace holds pull
invocations only (no tag, login, or push), and pull-local likewise ends
fatally. -/
theorem all_fail_fatal (goos : String) (run : Runner) (config : Config)
    (image : String)
    (hf : ∀ r ∈ config.dockerRegistries, attemptOk goos run (r ++ "/" ++ image) = false)
    (hbare : config.dockerRegistries = [] → attemptOk goos run image = false) :
    (runPull goos run config image).2 = false ∧
    (∀ c ∈ (runPull goos run config image).1, c.2.head? = some "pull") ∧
    (runPullLocal goos run config image).2 = false := by
  by_cases hc : config.dockerRegistries = []
  · have hb := hbare hc
    rw [runPull_bare goos run config image hc]
    refine ⟨by simp [hb], by simp [hb, pullCmd], ?_⟩
    simp [runPullLocal, hc, bareAttemptLocal, hb]
  · rw [runPull_mirror_allFail goos run config image hc hf]
    have hm := mirrorLoop_allFail goos run image config.dockerRegistries hf
    refine ⟨rfl, by simp [pullCmd], ?_⟩
    simp [runPullLocal, hc, mirrorLoopLocal_mirrorLoop, hm]

/-- Witness for C3: three hosts on an engine where everything fails. -/
theorem all_fail_fatal_witness :
    (runPull "linux" runnerAllFail cfgABC "img").2 = false ∧
    (∀ c ∈ (runPull "linux" runnerAllFail cfgABC "img").1,
      c.2.head? = some "pull") ∧
    (runPullLocal "linux" runnerAllFail cfgABC "img").2 = false :=
  all_fail_fatal "linux" runnerAllFail cfgABC "img" (by decide) (by decide)

/-- C4: whenever the pull stage succeeds — through any mirror host,
empty-named or not, or through the bare attempt of an empty mirror
list — the trace continues with the tag invocation and then exactly as
far as each of tag, login, and push succeeds: a failing step is the
last command of the run, and the run completes iff all three succeed.
A pull failure, by contrast, is never fatal: the loop records the
failed attempt and carries on with the remaining hosts. -/
theorem post_pull_failures_fatal (goos : String) (run : Runner)
    (config : Config) (image : String) (pullTrace : List Cmd) (reg : String)
    (hpull : (if config.dockerRegistries = [] then bareAttempt goos run image
              else mirrorLoop goos run image config.dockerRegistries) =
             (pullTrace, some reg)) :
    (runPull goos run config image).1 =
      pullTrace ++
        ("docker", ["tag", (if reg ≠ "" then reg ++ "/" ++ image else image),
          config.registry.domain ++ "/" ++ image]) ::
        (if (Execute goos run "docker"
              ["tag", (if reg ≠ "" then reg ++ "/" ++ image else image),
                config.registry.domain ++ "/" ++ image]).2 then
          ("docker", ["login", config.registry.domain, "-u",
            config.registry.username, "-p", config.registry.password]) ::
            (if (Execute goos run "docker" ["login", config.registry.domain,
                  "-u", config.registry.username, "-p",
                  config.registry.password]).2 then
              [("docker", ["push", config.registry.domain ++ "/" ++ image])]
            else [])
        else []) ∧
    (runPull goos run config image).2 =
      ((Execute goos run "docker"
          ["tag", (if reg ≠ "" then reg ++ "/" ++ image else image),
            config.registry.domain ++ "/" ++ image]).2 &&
        ((Execute goos run "docker" ["login", config.registry.domain, "-u",
            config.registry.username, "-p", config.registry.password]).2 &&
          (Execute goos run "docker"
            ["push", config.registry.domain ++ "/" ++ image]).2)) ∧
    (∀ r hosts, attemptOk goos run (r ++ "/" ++ image) = false →
      mirrorLoop goos run image (r :: hosts) =
        (pullCmd (r ++ "/" ++ image) :: (mirrorLoop goos run image hosts).1,
         (mirrorLoop goos run image hosts).2)) := by
  have h1 : runPull goos run config image =
      (pullTrace ++
        (afterPull goos run config (if reg ≠ "" then reg ++ "/" ++ image else image)
          (config.registry.domain ++ "/" ++ image)).1,
       (afterPull goos run config (if reg ≠ "" then reg ++ "/" ++ image else image)
          (config.registry.domain ++ "/" ++ image)).2) := by
    simp only [runPull]
    rw [hpull]
  rw [h1, afterPull_eq]
  refine ⟨rfl, rfl, fun r hosts hr => ?_⟩
  simp [mirrorLoop, hr]

/-- Witness for C4: an engine that only lets pulls succeed, applied
twice: host `a` pulls successfully and tag fails, and likewise for the
bare pull of an empty mirror list; both runs are fatal right after the
tag invocation. -/
theorem post_pull_failures_fatal_witness :
    ((runPull "linux" runnerPullsOnly cfgABC "img").1 =
      [pullCmd "a/img", ("docker", ["tag", "a/img", "example.com/img"])] ∧
     (runPull "linux" runnerPullsOnly cfgABC "img").2 = false) ∧
    ((runPull "linux" runnerPullsOnly cfgNoMirrors "img").1 =
      [pullCmd "img", ("docker", ["tag", "img", "example.com/img"])] ∧
     (runPull "linux" runnerPullsOnly cfgNoMirrors "img").2 = false) := by
  have h1 := post_pull_failures_fatal "linux" runnerPullsOnly cfgABC "img"
    [pullCmd "a/img"] "a" (by decide)
  have h2 := post_pull_failures_fatal "linux" runnerPullsOnly cfgNoMirrors "img"
    [pullCmd "img"] "" (by decide)
  exact ⟨⟨h1.1.trans (by decide), h1.2.1.trans (by decide)⟩,
         ⟨h2.1.trans (by decide), h2.2.1.trans (by decide)⟩⟩

/-- C5: pull-local's trace consists of `docker pull` invocations only
— no tag, login, or push ever — and when the first M hosts fail and the
(M+1)-th succeeds it stops there with a successful outcome. -/
theorem pull_local_never_pushes (goos : String) (run : Runner)
    (config : Config) (image : String) :
    (∀ c ∈ (runPullLocal goos run config image).1,
      c.1 = "docker" ∧ c.2.head? = some "pull") ∧
    (∀ failed succ rest, config.dockerRegistries = failed ++ succ :: rest →
      (∀ r ∈ failed, attemptOk goos run (r ++ "/" ++ image) = false) →
      attemptOk goos run (succ ++ "/" ++ image) = true →
      (runPullLocal goos run config image).1 =
        (failed ++ [succ]).map (fun r => pullCmd (r ++ "/" ++ image)) ∧
      (runPullLocal goos run config image).2 = true) := by
  constructor
  · by_cases hc : config.dockerRegistries = []
    · by_cases h : attemptOk goos run image = true
      · simp [runPullLocal, hc, bareAttemptLocal, h, pullCmd]
      · simp only [Bool.not_eq_true] at h
        simp [runPullLocal, hc, bareAttemptLocal, h, pullCmd]
    · simp only [runPullLocal, hc, if_neg, mirrorLoopLocal_mirrorLoop]
      intro c hcmem
      obtain ⟨t, rfl⟩ :=
        mirrorLoop_trace_pulls goos run image config.dockerRegistries c hcmem
      exact ⟨rfl, rfl⟩
  · intro failed succ rest hcfg hf hs
    have hne : config.dockerRegistries ≠ [] := by simp [hcfg]
    have hm := mirrorLoop_success goos run image failed succ rest hf hs
    rw [← hcfg] at hm
    constructor <;>
      simp [runPullLocal, hne, mirrorLoopLocal_mirrorLoop, hm]

/-- Witness for C5: hosts `a`, `b`, `c` where only `b/img` pulls
successfully; the trace is the two pull attempts and nothing else. -/
theorem pull_local_never_pushes_witness :
    (∀ c ∈ (runPullLocal "linux" (runnerOnlyTarget "b/img") cfgABC "img").1,
      c.1 = "docker" ∧ c.2.head? = some "pull") ∧
    (runPullLocal "linux" (runnerOnlyTarget "b/img") cfgABC "img").1 =
      (["a"] ++ ["b"]).map (fun r => pullCmd (r ++ "/" ++ "img")) :=
  ⟨(pull_local_never_pushes "linux" (runnerOnlyTarget "b/img") cfgABC "img").1,
   ((pull_local_never_pushes "linux" (runnerOnlyTarget "b/img") cfgABC "img").2
      ["a"] "b" ["c"] (by decide) (by decide) (by decide)).1⟩

/-- C6: with an empty mirror list, both pull and pull-local make
exactly one pull attempt, whose target is the bare image reference. -/
theorem empty_mirrors_single_bare_attempt (goos : String) (run : Runner)
    (config : Config) (image : String)
    (hcfg : config.dockerRegistries = []) :
    attemptsOf (runPull goos run config image).1 = [pullCmd image] ∧
    attemptsOf (runPullLocal goos run config image).1 = [pullCmd image] := by
  constructor
  · rw [runPull_bare goos run config image hcfg]
    by_cases h : attemptOk goos run image = true
    · simp [h, attemptsOf_cons_pull, attemptsOf_afterPull]
    · simp only [Bool.not_eq_true] at h
      simp [h, attemptsOf_cons_pull, attemptsOf_nil]
  · by_cases h : attemptOk goos run image = true
    · simp [runPullLocal, hcfg, bareAttemptLocal, h, attemptsOf_cons_pull,
        attemptsOf_nil]
    · simp only [Bool.not_eq_true] at h
      simp [runPullLocal, hcfg, bareAttemptLocal, h, attemptsOf_cons_pull,
        attemptsOf_nil]

/-- Witness for C6: a configuration with no mirror hosts makes the one
bare attempt, in both subcommands. -/
theorem empty_mirrors_single_bare_attempt_witness :
    attemptsOf (runPull "linux" runnerAllOk cfgNoMirrors "img").1 =
      [pullCmd "img"] ∧
    attemptsOf (runPullLocal "linux" runnerAllOk cfgNoMirrors "img").1 =
      [pullCmd "img"] :=
  empty_mirrors_single_bare_attempt "linux" runnerAllOk cfgNoMirrors "img"
    (by decide)

end DockerMirror
